import Mathlib

/-!
# optional.go: a shallow embedding of the Optional container

The Go package `optional` (src/optional.go) is embedded as Lean definitions.

* A Go type parameter `T any` is a Lean type carrying its zero value (`GoType`).
* The constraint `T comparable` is the class `GoComparable`: the operator `==` of the
  type. It is identity of values on integers, strings and structs of such fields,
  comparison of addresses on pointers, and the IEEE 754 comparison on `float64`, where
  `-0.0 == 0.0` holds and `NaN == NaN` does not.
* `reflect.DeepEqual` belongs to the Go standard library and accepts values of every
  type; it is the field `deepEqual` of `GoType`, with instances written after the rules
  of the package documentation of `reflect`.
* Callbacks (`func()`, `func(T)`, `func() T`, `func(T) U`) may have effects: they are
  state transformers over a caller state `σ`, passed explicitly.
* An `error` is `Option GoError`, the value `nil` being `none`.
-/

namespace optional

/-! ## Go values -/

/-- What the package uses of a Go type `T any`: its zero value (the value of `*new(T)`
and of every field left out of a composite literal) and the library function
`reflect.DeepEqual` on two values of the type. -/
class GoType (T : Type) where
  zero : T
  deepEqual : T → T → Bool

/-- The operator `==` of a Go type that satisfies `comparable`; `!=` is its negation. -/
class GoComparable (T : Type) where
  eq : T → T → Bool

/-- The operator `==` of a comparable type on which it is identity of values. -/
def identityComparable (T : Type) [DecidableEq T] : GoComparable T :=
  ⟨fun a b => decide (a = b)⟩

/-- Go `float64`, as its IEEE 754 binary64 bit pattern: sign (bit 63), exponent (bits 62
to 52), fraction (bits 51 to 0). -/
structure Float64 where
  bits : Fin 18446744073709551616
deriving DecidableEq, Repr

/-- A NaN: the exponent bits are all ones and the fraction is not zero. -/
def Float64.isNaN (x : Float64) : Bool :=
  (x.bits.val / 4503599627370496) % 2048 == 2047 && x.bits.val % 4503599627370496 != 0

/-- A zero, of either sign: all bits but the sign bit are zero. -/
def Float64.isZero (x : Float64) : Bool :=
  x.bits.val % 9223372036854775808 == 0

/-- The operator `==` on `float64`, the IEEE 754 comparison: a NaN is equal to nothing,
the two zeros are equal, and two other values are equal when their bits are. -/
def Float64.eq (x y : Float64) : Bool :=
  !x.isNaN && !y.isNaN && ((x.isZero && y.isZero) || x.bits == y.bits)

/-- The constant `0.0`: all bits zero. -/
def Float64.posZero : Float64 := ⟨⟨0, by decide⟩⟩

/-- The value `-0.0` (`math.Copysign(0, -1)`): the sign bit alone, `0x8000000000000000`. -/
def Float64.negZero : Float64 := ⟨⟨9223372036854775808, by decide⟩⟩

/-- The value of `math.NaN()`: `0x7FF8000000000001`. -/
def Float64.NaN : Float64 := ⟨⟨9221120237041090561, by decide⟩⟩

/-- The constant `1.0`: `0x3FF0000000000000`. -/
def Float64.one : Float64 := ⟨⟨4607182418800017408, by decide⟩⟩

/-- A Go slice: either the nil slice or a non-nil slice with its elements. The backing
array and the capacity play no part in any operation of the package. -/
inductive GoSlice (α : Type) where
  | nil
  | make (elems : List α)
deriving DecidableEq, Repr

/-- A Go pointer: nil, or the address of a variable together with the value stored
there. Two pointers with one address see one stored value. -/
inductive GoPtr (α : Type) where
  | nil
  | ref (addr : Nat) (pointee : α)
deriving DecidableEq, Repr

/-- The struct `Point` of src/optional_test.go: `type Point struct { X, Y int }`. -/
structure Point where
  X : Int
  Y : Int
deriving DecidableEq, Repr

/-- Elementwise deep equality of two element lists. -/
def deepEqualList {α : Type} (eq : α → α → Bool) : List α → List α → Bool
  | [], [] => true
  | x :: xs, y :: ys => eq x y && deepEqualList eq xs ys
  | _, _ => false

/-- Go `int`: zero value `0`; deeply equal when equal using `==`. -/
instance : GoType Int := ⟨0, fun a b => decide (a = b)⟩

/-- Go `string`: zero value `""`; deeply equal when equal using `==`. -/
instance : GoType String := ⟨"", fun a b => decide (a = b)⟩

/-- Go `float64`: zero value `0.0`; float values are deeply equal when equal using `==`. -/
instance : GoType Float64 := ⟨Float64.posZero, Float64.eq⟩

/-- Integers are equal when they are the same integer. -/
instance : GoComparable Int := identityComparable Int

/-- Strings are equal when they hold the same bytes. -/
instance : GoComparable String := identityComparable String

/-- Floating-point values are compared as the IEEE 754 standard says. -/
instance : GoComparable Float64 := ⟨Float64.eq⟩

/-- Struct values are equal when their corresponding fields are. -/
instance : GoComparable Point := identityComparable Point

/-- Pointer values are equal when they point to the same variable or are both nil. -/
instance {α : Type} : GoComparable (GoPtr α) :=
  ⟨fun p q =>
    match p, q with
    | GoPtr.nil, GoPtr.nil => true
    | GoPtr.ref a _, GoPtr.ref b _ => decide (a = b)
    | _, _ => false⟩

/-- Struct values are deeply equal when their corresponding fields are. -/
instance : GoType Point :=
  ⟨⟨0, 0⟩, fun p q => GoType.deepEqual p.X q.X && GoType.deepEqual p.Y q.Y⟩

/-- Slice values are deeply equal when they are both nil or both non-nil, have the same
length, and their corresponding elements are deeply equal. The zero value is nil. -/
instance {α : Type} [GoType α] : GoType (GoSlice α) :=
  ⟨GoSlice.nil, fun s t =>
    match s, t with
    | GoSlice.nil, GoSlice.nil => true
    | GoSlice.make xs, GoSlice.make ys =>
        decide (xs.length = ys.length) && deepEqualList GoType.deepEqual xs ys
    | _, _ => false⟩

/-- Pointer values are deeply equal if they are equal using `==` or if they point to
deeply equal values. The zero value is nil. -/
instance {α : Type} [GoType α] : GoType (GoPtr α) :=
  ⟨GoPtr.nil, fun p q =>
    match p, q with
    | GoPtr.nil, GoPtr.nil => true
    | GoPtr.ref a x, GoPtr.ref b y => decide (a = b) || GoType.deepEqual x y
    | _, _ => false⟩

/-! ## Errors -/

/-- Go error values as the package meets them: the result of `fmt.Errorf` without `%w`
(an error string allocated at `addr`) and with `%w` (a wrapper around another error). -/
inductive GoError where
  | errorString (addr : Nat) (msg : String)
  | wrapError (addr : Nat) (msg : String) (err : GoError)
deriving DecidableEq, Repr

/-- The package-level `var ErrNoValue = fmt.Errorf("Optional has no value")`. -/
def ErrNoValue : GoError := GoError.errorString 0 "Optional has no value"

/-! ## The container -/

/-- The struct `Optional[T]`: `value T` and `hasValue bool`. -/
structure Optional (T : Type) where
  value : T
  hasValue : Bool
deriving DecidableEq, Repr

/-- The declaration `var opt Optional[T]`: every field holds its zero value. -/
def zeroOptional {T : Type} [GoType T] : Optional T :=
  { value := GoType.zero, hasValue := false }

/-- `func Of[T any](value T) Optional[T]`. -/
def Of {T : Type} (value : T) : Optional T :=
  { value := value, hasValue := true }

/-- `func OfMaybe[T comparable](value T) Optional[T]`. -/
def OfMaybe {T : Type} [GoType T] [GoComparable T] (value : T) : Optional T :=
  let hasValue := false
  let hasValue := if !GoComparable.eq value (GoType.zero : T) then true else hasValue
  { value := value, hasValue := hasValue }

/-- `func OfMaybeIncomparable[T any](value T) Optional[T]`. -/
def OfMaybeIncomparable {T : Type} [GoType T] (value : T) : Optional T :=
  let hasValue := false
  let hasValue := if !GoType.deepEqual value (GoType.zero : T) then true else hasValue
  { value := value, hasValue := hasValue }

/-- `func Empty[T any]() Optional[T]`: the field `value` is left out of the literal. -/
def Empty {T : Type} [GoType T] : Optional T :=
  { value := GoType.zero, hasValue := false }

/-- `func (o Optional[T]) HasValue() bool`. -/
def Optional.HasValue {T : Type} (o : Optional T) : Bool :=
  o.hasValue

/-- `func (o Optional[T]) Empty() bool`. -/
def Optional.Empty {T : Type} (o : Optional T) : Bool :=
  !o.HasValue

/-- `func (o Optional[T]) Get() (T, error)`. -/
def Optional.Get {T : Type} (o : Optional T) : T × Option GoError :=
  if o.Empty then (o.value, some ErrNoValue) else (o.value, none)

/-- `func (o Optional[T]) OrElse(elseValue T) T`. -/
def Optional.OrElse {T : Type} (o : Optional T) (elseValue : T) : T :=
  if o.hasValue then o.value else elseValue

/-- `func (o Optional[T]) OrElseGet(elseFunc func() T) T`. -/
def Optional.OrElseGet {T σ : Type} (o : Optional T) (elseFunc : σ → T × σ) (s : σ) :
    T × σ :=
  if o.hasValue then (o.value, s) else elseFunc s

/-- `func (o Optional[T]) IfPresent(action func(T))`. -/
def Optional.IfPresent {T σ : Type} (o : Optional T) (action : T → σ → σ) (s : σ) : σ :=
  if o.hasValue then action o.value s else s

/-- `func (o Optional[T]) IfPresentOrElse(action func(T), elseAction func())`. -/
def Optional.IfPresentOrElse {T σ : Type} (o : Optional T) (action : T → σ → σ)
    (elseAction : σ → σ) (s : σ) : σ :=
  if o.hasValue then action o.value s else elseAction s

/-- `func (o Optional[T]) IfEmpty(action func())`. -/
def Optional.IfEmpty {T σ : Type} (o : Optional T) (action : σ → σ) (s : σ) : σ :=
  if !o.hasValue then action s else s

/-- `func Map[T any, U any](opt Optional[T], mapper func(T) U) Optional[U]`. -/
def Map {T U σ : Type} [GoType U] (opt : Optional T) (mapper : T → σ → U × σ) (s : σ) :
    Optional U × σ :=
  if opt.HasValue then
    let r := mapper opt.value s
    (Of r.1, r.2)
  else
    (Empty, s)

/-- Optionals obtainable through the public API: the zero-initialised variable, the four
constructors, and `Map` applied to an obtainable Optional with any mapper. The type comes
with its zero value and `reflect.DeepEqual` (`g`) and, when it is comparable, with its
operator `==` (`c`); `OfMaybe` is there for a comparable type only. -/
inductive Reachable :
    (T : Type) → GoType T → Option (GoComparable T) → Optional T → Prop where
  | zeroInit (T : Type) (g : GoType T) (c : Option (GoComparable T)) :
      Reachable T g c (@zeroOptional T g)
  | of (T : Type) (g : GoType T) (c : Option (GoComparable T)) (v : T) :
      Reachable T g c (Of v)
  | ofMaybe (T : Type) (g : GoType T) (c : GoComparable T) (v : T) :
      Reachable T g (some c) (@OfMaybe T g c v)
  | ofMaybeIncomparable (T : Type) (g : GoType T) (c : Option (GoComparable T)) (v : T) :
      Reachable T g c (@OfMaybeIncomparable T g v)
  | empty (T : Type) (g : GoType T) (c : Option (GoComparable T)) :
      Reachable T g c (@Empty T g)
  | map (S U σ : Type) (gS : GoType S) (cS : Option (GoComparable S)) (gU : GoType U)
      (cU : Option (GoComparable U)) (o : Optional S) (mapper : S → σ → U × σ) (s : σ) :
      Reachable S gS cS o → Reachable U gU cU (@Map S U σ gU o mapper s).1

/-! ## Recording the invocations of callbacks

A callback handed to the package is wrapped so that each of its runs appends an entry to
a call log carried next to the caller state. The package code runs unchanged on the
wrapped callback; the log then tells how often, and on which argument, it was invoked.
Callbacks are non-nil function values that return. -/

/-- A callback `func()` that appends `tag` to the call log on each run. -/
def recorded {σ κ : Type} (tag : κ) (f : σ → σ) (st : σ × List κ) : σ × List κ :=
  (f st.1, st.2 ++ [tag])

/-- A callback `func(T)` that appends the tag of its argument to the call log on each
run. -/
def recordedAction {T σ κ : Type} (tag : T → κ) (action : T → σ → σ) (v : T)
    (st : σ × List κ) : σ × List κ :=
  (action v st.1, st.2 ++ [tag v])

/-- A supplier `func() T` that appends `tag` to the call log on each run. -/
def recordedSupplier {T σ κ : Type} (tag : κ) (elseFunc : σ → T × σ) (st : σ × List κ) :
    T × (σ × List κ) :=
  ((elseFunc st.1).1, ((elseFunc st.1).2, st.2 ++ [tag]))

/-- A mapper `func(T) U` that appends the tag of its argument to the call log on each
run. -/
def recordedMapper {T U σ κ : Type} (tag : T → κ) (mapper : T → σ → U × σ) (v : T)
    (st : σ × List κ) : U × (σ × List κ) :=
  ((mapper v st.1).1, ((mapper v st.1).2, st.2 ++ [tag v]))

/-- A pure function used as mapper: it leaves the caller state as it is. -/
def pureMapper {T U σ : Type} (f : T → U) (v : T) (s : σ) : U × σ :=
  (f v, s)

/-- The mapper of src/optional_test.go:
`func(v int) string { return "Value is " + fmt.Sprint(v) }`. -/
def mapFunc (v : Int) : String :=
  "Value is " ++ toString v

/-! ## Wrapping and identity of errors

`fmt.Errorf` and `errors.Is` belong to the Go standard library; they are written after
their package documentation. -/

/-- The call `fmt.Errorf(format, ..., err)` whose format holds one `%w` verb: a new error
allocated at `addr`, with the formatted message `msg`, that wraps `err`. -/
def Errorf (addr : Nat) (msg : String) (err : GoError) : GoError :=
  GoError.wrapError addr msg err

/-- The method `Unwrap() error`: a wrapper gives the error it wraps; an error string has
no such method. -/
def GoError.Unwrap : GoError → Option GoError
  | GoError.errorString _ _ => none
  | GoError.wrapError _ _ err => some err

/-- The loop of `errors.Is` on a non-nil error: `err == target`, else unwrap and go on,
until there is nothing left to unwrap. -/
def isChain (target : GoError) : GoError → Bool
  | GoError.errorString a m => decide (GoError.errorString a m = target)
  | GoError.wrapError a m err =>
      decide (GoError.wrapError a m err = target) || isChain target err

/-- `errors.Is(err, target)`: with a nil argument the result is `err == target`;
otherwise the chain of `err` is searched for `target`. -/
def errorsIs (err target : Option GoError) : Bool :=
  match err, target with
  | some e, some t => isChain t e
  | none, none => true
  | _, _ => false

/-- A chain of context-adding wrappers, applied innermost first: each entry is the
address and the message of one `fmt.Errorf` call with `%w`. -/
def wrapAll : List (Nat × String) → GoError → GoError
  | [], e => e
  | (a, m) :: rest, e => wrapAll rest (Errorf a m e)

/-! ## Deep equality with the zero value -/

/-- Only the nil slice is deeply equal to the zero value of a slice type. -/
theorem deepEqual_zero_slice {α : Type} [GoType α] (s : GoSlice α)
    (h : GoType.deepEqual s (GoType.zero : GoSlice α) = true) : s = GoType.zero := by
  cases s with
  | nil => rfl
  | make xs => exact absurd h (by simp [GoType.deepEqual, GoType.zero])

/-- A non-nil slice, whatever its length, is not deeply equal to the zero value. -/
theorem deepEqual_make_zero {α : Type} [GoType α] (xs : List α) :
    GoType.deepEqual (GoSlice.make xs) (GoType.zero : GoSlice α) = false := rfl

/-- Only the nil pointer is deeply equal to the zero value of a pointer type. -/
theorem deepEqual_zero_ptr {α : Type} [GoType α] (p : GoPtr α)
    (h : GoType.deepEqual p (GoType.zero : GoPtr α) = true) : p = GoType.zero := by
  cases p with
  | nil => rfl
  | ref a x => exact absurd h (by simp [GoType.deepEqual, GoType.zero])

/-- Only `0` is deeply equal to the zero value of `int`. -/
theorem deepEqual_zero_int (n : Int)
    (h : GoType.deepEqual n (GoType.zero : Int) = true) : n = GoType.zero := by
  simpa [GoType.deepEqual] using h

/-- Only `Point{0, 0}` is deeply equal to the zero value of `Point`. -/
theorem deepEqual_zero_point (p : Point)
    (h : GoType.deepEqual p (GoType.zero : Point) = true) : p = GoType.zero := by
  cases p with
  | mk x y =>
    simp [GoType.deepEqual, GoType.zero] at h
    simp [GoType.zero, h.1, h.2]

/-- Only the two zeros are equal to the zero value of `float64` using `==`; the value
`-0.0` is one of them and is not the zero value. -/
theorem float64_eq_negZero_zero :
    Float64.eq Float64.negZero Float64.posZero = true ∧ Float64.negZero ≠ Float64.posZero := by
  decide

/-- The stored payload of an obtainable Optional without a value: the zero value itself,
or a value `==` to it (from `OfMaybe`), or a value deeply equal to it (from
`OfMaybeIncomparable`). -/
theorem reachable_payload_of_empty {T : Type} (g : GoType T) (c : Option (GoComparable T))
    (o : Optional T) (hr : Reachable T g c o) (hb : o.hasValue = false) :
    o.value = g.zero ∨ (∃ c1 : GoComparable T, c = some c1 ∧ c1.eq o.value g.zero = true) ∨
      g.deepEqual o.value g.zero = true := by
  cases hr
  case zeroInit => exact Or.inl rfl
  case of v => simp [Of] at hb
  case ofMaybe c1 v =>
    cases hv : c1.eq v g.zero with
    | true => exact Or.inr (Or.inl ⟨c1, rfl, by simpa [OfMaybe] using hv⟩)
    | false => simp [OfMaybe, hv] at hb
  case ofMaybeIncomparable v =>
    cases hd : g.deepEqual v g.zero with
    | true => exact Or.inr (Or.inr (by simpa [OfMaybeIncomparable] using hd))
    | false => simp [OfMaybeIncomparable, hd] at hb
  case empty => exact Or.inl rfl
  case map S σ gS cS o s hs mapper =>
    cases ho : o.hasValue with
    | true => simp [Map, Of, Optional.HasValue, ho] at hb
    | false => exact Or.inl (by simp [Map, Empty, Optional.HasValue, ho])

/-- On a type where `==` and `reflect.DeepEqual` hold with the zero value for the zero
value only, an obtainable Optional without a value stores the zero value. -/
theorem reachable_value_zero {T : Type} (g : GoType T) (c : Option (GoComparable T))
    (hdeep : ∀ v : T, g.deepEqual v g.zero = true → v = g.zero)
    (heq : ∀ c1 : GoComparable T, c = some c1 → ∀ v : T, c1.eq v g.zero = true → v = g.zero)
    (o : Optional T) (hr : Reachable T g c o) (hb : o.hasValue = false) :
    o.value = g.zero := by
  rcases reachable_payload_of_empty g c o hr hb with h | ⟨c1, hc, h⟩ | h
  · exact h
  · exact heq c1 hc _ h
  · exact hdeep _ h

/-! ## Construction -/

/-- C1: for every type and every value `v`, `Of v` is present: `HasValue` is true,
`Empty` is false and `Get` returns `v` with a nil error. The zero value of the type is
no exception: `Of 0`, `Of ""` and `Of` of a nil pointer are present. -/
theorem of_present :
    (∀ (T : Type) (v : T),
      (Of v).HasValue = true ∧ (Of v).Empty = false ∧ (Of v).Get = (v, none)) ∧
    (∀ (T : Type) [GoType T],
      (Of (GoType.zero : T)).HasValue = true ∧ (Of (GoType.zero : T)).Empty = false ∧
        (Of (GoType.zero : T)).Get = (GoType.zero, none)) ∧
    (Of (0 : Int)).Get = (0, none) ∧ (Of "").Get = ("", none) ∧
    (Of (GoPtr.nil : GoPtr Int)).Get = (GoPtr.nil, none) :=
  ⟨fun _ _ => ⟨rfl, rfl, rfl⟩, fun _ _ => ⟨rfl, rfl, rfl⟩, rfl, rfl, rfl⟩

/-- C2: for every type, `Empty` is absent: `HasValue` is false, `Empty` is true and
`Get` returns the zero value of the type together with `ErrNoValue`. -/
theorem empty_absent (T : Type) [GoType T] :
    (Empty : Optional T).HasValue = false ∧ (Empty : Optional T).Empty = true ∧
      (Empty : Optional T).Get = (GoType.zero, some ErrNoValue) :=
  ⟨rfl, rfl, rfl⟩

/-! ## Get -/

/-- C3: for every Optional `o`, `Get` returns a non-nil error if and only if `o.Empty`
is true; a returned error is `ErrNoValue` and no other; a present `o` gives the wrapped
value with a nil error. `Get` is a total function: it has a result on every Optional,
the empty one included. -/
theorem get_error_iff_empty {T : Type} (o : Optional T) :
    (o.Get.2 ≠ none ↔ o.Empty = true) ∧
    (∀ e : GoError, o.Get.2 = some e → e = ErrNoValue) ∧
    (o.HasValue = true → o.Get = (o.value, none)) ∧
    (o.Empty = true → o.Get = (o.value, some ErrNoValue)) ∧
    (∃ r : T × Option GoError, o.Get = r ∧ r.1 = o.value) := by
  obtain ⟨v, b⟩ := o
  cases b <;> simp [Optional.Get, Optional.Empty, Optional.HasValue]

/-- Witness of C3 at the empty Optional of integers and at `Of 10`. -/
theorem get_error_iff_empty_witness :
    (Empty : Optional Int).Get = (0, some ErrNoValue) ∧ (Of (10 : Int)).Get = (10, none) :=
  ⟨(get_error_iff_empty (Empty : Optional Int)).2.2.2.1 rfl,
   (get_error_iff_empty (Of (10 : Int))).2.2.1 rfl⟩

/-- C4, as stated, fails: `OfMaybe(-0.0)` on `float64` is obtainable through the public
API and empty, since `-0.0 == 0.0`, and `Get` returns `-0.0` alongside `ErrNoValue`: the
stored payload is the argument, not the zero value `0.0` of the type. -/
theorem ofMaybe_negZero_payload_not_zero :
    Reachable Float64 inferInstance (some inferInstance) (OfMaybe Float64.negZero) ∧
    (OfMaybe Float64.negZero).Empty = true ∧
    (OfMaybe Float64.negZero).Get = (Float64.negZero, some ErrNoValue) ∧
    (OfMaybe Float64.negZero).Get.1 ≠ (GoType.zero : Float64) :=
  ⟨Reachable.ofMaybe Float64 inferInstance inferInstance Float64.negZero,
    by decide, by decide, by decide⟩

/-- C4, amended: for every empty Optional obtainable through the public API (the
zero-initialised Optional, `Empty`, `OfMaybe`, `OfMaybeIncomparable`, `Map`), `Get`
returns `ErrNoValue` together with the stored payload, and that payload is the zero value
of the type, or is `==` to it (a result of `OfMaybe`), or is deeply equal to it (a result
of `OfMaybeIncomparable`). On a type where `==` and `reflect.DeepEqual` hold with the
zero value for the zero value only, the payload is the zero value and `Get` returns it. -/
theorem reachable_empty_stores_zero {T : Type} (g : GoType T)
    (c : Option (GoComparable T)) (o : Optional T) (hr : Reachable T g c o)
    (he : o.Empty = true) :
    o.Get = (o.value, some ErrNoValue) ∧
    (o.value = g.zero ∨
      (∃ c1 : GoComparable T, c = some c1 ∧ c1.eq o.value g.zero = true) ∨
      g.deepEqual o.value g.zero = true) ∧
    ((∀ v : T, g.deepEqual v g.zero = true → v = g.zero) →
      (∀ c1 : GoComparable T, c = some c1 → ∀ v : T, c1.eq v g.zero = true → v = g.zero) →
      o.value = g.zero ∧ o.Get = (g.zero, some ErrNoValue)) := by
  have hb : o.hasValue = false := by
    simpa [Optional.Empty, Optional.HasValue] using he
  have hget : o.Get = (o.value, some ErrNoValue) := by
    simp [Optional.Get, he]
  refine ⟨hget, reachable_payload_of_empty g c o hr hb, ?_⟩
  intro hdeep heq
  have key := reachable_value_zero g c hdeep heq o hr hb
  exact ⟨key, by rw [hget, key]⟩

/-- Witness of C4 amended: at slices of integers `OfMaybeIncomparable` of the nil slice
is obtainable and empty, and `Get` returns the nil slice with `ErrNoValue`. -/
theorem reachable_empty_stores_zero_witness :
    (OfMaybeIncomparable (GoSlice.nil : GoSlice Int)).value = GoSlice.nil ∧
      (OfMaybeIncomparable (GoSlice.nil : GoSlice Int)).Get =
        (GoSlice.nil, some ErrNoValue) :=
  (reachable_empty_stores_zero (inferInstance : GoType (GoSlice Int)) none
    (OfMaybeIncomparable GoSlice.nil)
    (Reachable.ofMaybeIncomparable _ _ _ GoSlice.nil) rfl).2.2
    (fun v h => deepEqual_zero_slice v h) (fun _ h => by cases h)

/-! ## The zero-initialised Optional -/

/-- C5: for every type, the zero-initialised Optional and `Empty` are the same value and
give the same result under every operation: `HasValue`, `Empty`, `Get`, `OrElse`,
`OrElseGet`, `IfPresent`, `IfPresentOrElse`, `IfEmpty` and `Map`, for every callback and
every caller state, so that the same callbacks run with the same effect on both. -/
theorem zeroOptional_behaves_as_empty (T U σ : Type) [GoType T] [GoType U]
    (elseValue : T) (elseFunc : σ → T × σ) (action : T → σ → σ) (elseAction : σ → σ)
    (emptyAction : σ → σ) (mapper : T → σ → U × σ) (s : σ) :
    (zeroOptional : Optional T) = Empty ∧
    (zeroOptional : Optional T).HasValue = (Empty : Optional T).HasValue ∧
    (zeroOptional : Optional T).Empty = (Empty : Optional T).Empty ∧
    (zeroOptional : Optional T).Get = (Empty : Optional T).Get ∧
    (zeroOptional : Optional T).OrElse elseValue = (Empty : Optional T).OrElse elseValue ∧
    (zeroOptional : Optional T).OrElseGet elseFunc s =
      (Empty : Optional T).OrElseGet elseFunc s ∧
    (zeroOptional : Optional T).IfPresent action s =
      (Empty : Optional T).IfPresent action s ∧
    (zeroOptional : Optional T).IfPresentOrElse action elseAction s =
      (Empty : Optional T).IfPresentOrElse action elseAction s ∧
    (zeroOptional : Optional T).IfEmpty emptyAction s =
      (Empty : Optional T).IfEmpty emptyAction s ∧
    Map (zeroOptional : Optional T) mapper s = Map (Empty : Optional T) mapper s ∧
    (zeroOptional : Optional T).HasValue = false ∧
    (zeroOptional : Optional T).Get = (GoType.zero, some ErrNoValue) ∧
    (zeroOptional : Optional T).OrElseGet elseFunc s = elseFunc s ∧
    (zeroOptional : Optional T).IfPresent action s = s ∧
    (zeroOptional : Optional T).IfPresentOrElse action elseAction s = elseAction s ∧
    (zeroOptional : Optional T).IfEmpty emptyAction s = emptyAction s ∧
    Map (zeroOptional : Optional T) mapper s = (Empty, s) :=
  ⟨rfl, rfl, rfl, rfl, rfl, rfl, rfl, rfl, rfl, rfl, rfl, rfl, rfl, rfl, rfl, rfl, rfl⟩

/-! ## OfMaybe and OfMaybeIncomparable -/

/-- C6: for every comparable type and every value `v`: if `v` equals the zero value
(`v == zero`) then `OfMaybe v` is empty (`HasValue` false, `Get` returns `ErrNoValue`),
and if `v` differs from the zero value (`v != zero`) then `OfMaybe v` is present and is
`Of v`. On a type whose `==` is identity of values that reads: empty when `v` is the zero
value, `Of v` when it is not. So a struct whose fields are all zero gives an empty
Optional, as does a nil pointer, and a struct with a non-zero field or a non-nil pointer
gives a present one; on `float64` both zeros give an empty one and a NaN a present one. -/
theorem ofMaybe_zero_iff_empty :
    (∀ (T : Type) [GoType T] [GoComparable T] (v : T),
      (GoComparable.eq v (GoType.zero : T) = true →
        (OfMaybe v).HasValue = false ∧ (OfMaybe v).Empty = true ∧
          (OfMaybe v).Get.2 = some ErrNoValue) ∧
      (GoComparable.eq v (GoType.zero : T) = false →
        OfMaybe v = Of v ∧ (OfMaybe v).HasValue = true ∧ (OfMaybe v).Get = (v, none))) ∧
    (∀ (T : Type) [GoType T] [DecidableEq T] (v : T),
      (v = GoType.zero →
        (@OfMaybe T _ (identityComparable T) v).HasValue = false ∧
          (@OfMaybe T _ (identityComparable T) v).Empty = true ∧
          (@OfMaybe T _ (identityComparable T) v).Get.2 = some ErrNoValue) ∧
      (v ≠ GoType.zero →
        @OfMaybe T _ (identityComparable T) v = Of v ∧
          (@OfMaybe T _ (identityComparable T) v).HasValue = true ∧
          (@OfMaybe T _ (identityComparable T) v).Get = (v, none))) ∧
    (OfMaybe (Point.mk 0 0)).Empty = true ∧
    (OfMaybe (Point.mk 0 0)).Get.2 = some ErrNoValue ∧
    OfMaybe (Point.mk 1 2) = Of (Point.mk 1 2) ∧
    (OfMaybe (GoPtr.nil : GoPtr Int)).Empty = true ∧
    (OfMaybe (GoPtr.nil : GoPtr Int)).Get.2 = some ErrNoValue ∧
    (∀ (a : Nat) (x : Int), OfMaybe (GoPtr.ref a x) = Of (GoPtr.ref a x)) ∧
    (OfMaybe Float64.posZero).Empty = true ∧ (OfMaybe Float64.negZero).Empty = true ∧
    OfMaybe Float64.one = Of Float64.one ∧ OfMaybe Float64.NaN = Of Float64.NaN := by
  refine ⟨?_, ?_, by decide, by decide, by decide, by decide, by decide, ?_,
    by decide, by decide, by decide, by decide⟩
  · intro T _ _ v
    constructor
    · intro hv
      simp [OfMaybe, Optional.HasValue, Optional.Empty, Optional.Get, hv]
    · intro hv
      simp [OfMaybe, Of, Optional.HasValue, Optional.Empty, Optional.Get, hv]
  · intro T _ _ v
    constructor
    · intro hv
      simp [OfMaybe, identityComparable, Optional.HasValue, Optional.Empty, Optional.Get,
        hv]
    · intro hv
      simp [OfMaybe, identityComparable, Of, Optional.HasValue, Optional.Empty,
        Optional.Get, hv]
  · intro a x
    simp [OfMaybe, Of, GoType.zero, GoComparable.eq]

/-- Witness of C6 at the integers `0` and `42`. -/
theorem ofMaybe_zero_iff_empty_witness :
    (OfMaybe (0 : Int)).HasValue = false ∧ OfMaybe (42 : Int) = Of 42 :=
  ⟨((ofMaybe_zero_iff_empty.1 Int 0).1 rfl).1,
   ((ofMaybe_zero_iff_empty.1 Int 42).2 (by decide)).1⟩

/-- C7: for every type (no equality constraint) and every value `v`,
`OfMaybeIncomparable v` is empty exactly when `v` is deeply equal to the zero value of
the type, and otherwise it is present and is `Of v`. The comparison goes through the
structure of the value: field by field on a struct, element by element on a slice. -/
theorem ofMaybeIncomparable_deepEqual_iff_empty :
    (∀ (T : Type) [GoType T] (v : T),
      ((OfMaybeIncomparable v).Empty = true ↔
        GoType.deepEqual v (GoType.zero : T) = true) ∧
      (GoType.deepEqual v (GoType.zero : T) = true →
        (OfMaybeIncomparable v).HasValue = false ∧
          (OfMaybeIncomparable v).Get = (v, some ErrNoValue)) ∧
      (GoType.deepEqual v (GoType.zero : T) = false →
        OfMaybeIncomparable v = Of v ∧ (OfMaybeIncomparable v).Get = (v, none))) ∧
    (∀ x y : Int, (OfMaybeIncomparable (Point.mk x y)).Empty = true ↔ x = 0 ∧ y = 0) ∧
    (OfMaybeIncomparable (GoSlice.nil : GoSlice (GoSlice Int))).Empty = true ∧
    OfMaybeIncomparable (GoSlice.make [(1 : Int), 2, 3]) = Of (GoSlice.make [1, 2, 3]) := by
  refine ⟨?_, ?_, by decide, by decide⟩
  · intro T _ v
    cases hd : GoType.deepEqual v (GoType.zero : T) <;>
      simp [OfMaybeIncomparable, Of, Optional.HasValue, Optional.Empty, Optional.Get, hd]
  · intro x y
    simp [OfMaybeIncomparable, Optional.HasValue, Optional.Empty, GoType.deepEqual,
      GoType.zero]

/-- Witness of C7 at the integers `0` and `42`. -/
theorem ofMaybeIncomparable_deepEqual_iff_empty_witness :
    (OfMaybeIncomparable (0 : Int)).HasValue = false ∧
      OfMaybeIncomparable (42 : Int) = Of 42 :=
  ⟨((ofMaybeIncomparable_deepEqual_iff_empty.1 Int 0).2.1 rfl).1,
   ((ofMaybeIncomparable_deepEqual_iff_empty.1 Int 42).2.2 (by decide)).1⟩

/-- C8, as stated, fails: the non-nil slice of length zero (`[]int{}`) is an empty
sequence, yet `OfMaybeIncomparable` of it is not empty; it is present and wraps it,
because `reflect.DeepEqual` tells a non-nil empty slice from the nil slice. -/
theorem ofMaybeIncomparable_empty_slice_present :
    ¬ ((OfMaybeIncomparable (GoSlice.make ([] : List Int))).Empty = true) ∧
      (OfMaybeIncomparable (GoSlice.make ([] : List Int))).HasValue = true ∧
      (OfMaybeIncomparable (GoSlice.make ([] : List Int))).Get = (GoSlice.make [], none) := by
  decide

/-- C8, amended: for every slice value `s`, `OfMaybeIncomparable s` is empty when `s` is
the nil slice, and is present wrapping `s` when `s` is non-nil, whatever its length (so
also for every non-empty slice). -/
theorem ofMaybeIncomparable_slice_nil_iff_empty {α : Type} [GoType α] (s : GoSlice α) :
    ((OfMaybeIncomparable s).Empty = true ↔ s = GoSlice.nil) ∧
    (s = GoSlice.nil →
      (OfMaybeIncomparable s).HasValue = false ∧
        (OfMaybeIncomparable s).Get = (GoSlice.nil, some ErrNoValue)) ∧
    (∀ xs : List α, s = GoSlice.make xs →
      OfMaybeIncomparable s = Of s ∧ (OfMaybeIncomparable s).HasValue = true ∧
        (OfMaybeIncomparable s).Get = (s, none)) := by
  cases s with
  | nil =>
    refine ⟨⟨fun _ => rfl, fun _ => rfl⟩, fun _ => ⟨rfl, rfl⟩, ?_⟩
    intro xs h
    cases h
  | make ys =>
    refine ⟨⟨?_, ?_⟩, ?_, ?_⟩
    · intro h
      simp [OfMaybeIncomparable, Optional.Empty, Optional.HasValue,
        deepEqual_make_zero] at h
    · intro h
      cases h
    · intro h
      cases h
    · intro xs _
      simp [OfMaybeIncomparable, Of, Optional.Get, Optional.Empty, Optional.HasValue,
        deepEqual_make_zero]

/-- Witness of C8 amended, at the nil slice and at the slice `[]int{1, 2, 3}`. -/
theorem ofMaybeIncomparable_slice_nil_iff_empty_witness :
    (OfMaybeIncomparable (GoSlice.nil : GoSlice Int)).HasValue = false ∧
      OfMaybeIncomparable (GoSlice.make [(1 : Int), 2, 3]) = Of (GoSlice.make [1, 2, 3]) :=
  ⟨((ofMaybeIncomparable_slice_nil_iff_empty (GoSlice.nil : GoSlice Int)).2.1 rfl).1,
   ((ofMaybeIncomparable_slice_nil_iff_empty (GoSlice.make [(1 : Int), 2, 3])).2.2
      [1, 2, 3] rfl).1⟩

/-! ## Accessors -/

/-- C9: for every Optional `o`, whatever its fields, `o.Empty` is the negation of
`o.HasValue`, and exactly one of the two is true. -/
theorem empty_eq_not_hasValue {T : Type} (o : Optional T) :
    o.Empty = !o.HasValue ∧
    ((o.Empty = true ∧ o.HasValue = false) ∨ (o.Empty = false ∧ o.HasValue = true)) ∧
    ¬ (o.Empty = true ∧ o.HasValue = true) := by
  obtain ⟨v, b⟩ := o
  cases b <;> simp [Optional.Empty, Optional.HasValue]

/-- C10: for every value `v` and every fallback `d`, `(Of v).OrElse d` is `v`, whatever
`d`; for every empty Optional `o`, `o.OrElse d` is `d`. -/
theorem orElse_present_or_fallback {T : Type} (v d : T) (o : Optional T)
    (he : o.Empty = true) :
    (Of v).OrElse d = v ∧ o.OrElse d = d := by
  obtain ⟨w, b⟩ := o
  cases b
  · exact ⟨rfl, rfl⟩
  · simp [Optional.Empty, Optional.HasValue] at he

/-- Witness of C10: `Of(10).OrElse(20)` is `10` and `Empty[int]().OrElse(20)` is `20`. -/
theorem orElse_present_or_fallback_witness :
    (Empty : Optional Int).Empty = true ∧
      (Of (10 : Int)).OrElse 20 = 10 ∧ (Empty : Optional Int).OrElse 20 = 20 :=
  ⟨rfl, orElse_present_or_fallback (10 : Int) 20 Empty rfl⟩

/-! ## Callbacks -/

/-- C11: for every Optional `o` and every supplier, run with a call log: if `o` is
present, `OrElseGet` returns the wrapped value, the log and the caller state are as
before (the supplier ran zero times); if `o` is empty, the log has grown by exactly one
entry and `OrElseGet` returns the result, and leaves the state, of that one run. -/
theorem orElseGet_supplier_calls {T σ κ : Type} (o : Optional T) (elseFunc : σ → T × σ)
    (tag : κ) (s : σ) (log : List κ) :
    (o.HasValue = true →
      o.OrElseGet (recordedSupplier tag elseFunc) (s, log) = (o.value, (s, log)) ∧
      o.OrElseGet elseFunc s = (o.value, s)) ∧
    (o.Empty = true →
      o.OrElseGet (recordedSupplier tag elseFunc) (s, log) =
        ((elseFunc s).1, ((elseFunc s).2, log ++ [tag])) ∧
      o.OrElseGet elseFunc s = elseFunc s) := by
  obtain ⟨v, b⟩ := o
  cases b <;>
    simp [Optional.OrElseGet, Optional.HasValue, Optional.Empty, recordedSupplier]

/-- Witness of C11: `Of(10).OrElseGet` does not run the supplier and gives `10`;
`Empty[int]().OrElseGet` runs it once and gives its result `20`. -/
theorem orElseGet_supplier_calls_witness :
    (Of (10 : Int)).OrElseGet (recordedSupplier () (fun s : Nat => ((20 : Int), s + 1)))
        (0, []) = (10, (0, [])) ∧
    (Empty : Optional Int).OrElseGet
        (recordedSupplier () (fun s : Nat => ((20 : Int), s + 1))) (0, []) =
      (20, (1, [()])) :=
  ⟨((orElseGet_supplier_calls (Of (10 : Int)) (fun s : Nat => ((20 : Int), s + 1)) ()
      0 []).1 rfl).1,
   ((orElseGet_supplier_calls (Empty : Optional Int)
      (fun s : Nat => ((20 : Int), s + 1)) () 0 []).2 rfl).1⟩

/-- C12: for every Optional `o` and every pair of callbacks, run with a call log,
`IfPresentOrElse` appends exactly one entry to the log: that of `action` on the wrapped
value when `o` is present, that of `elseAction` when `o` is empty; the caller state is the
one left by that single run. Never both callbacks, never neither. -/
theorem ifPresentOrElse_one_callback {T σ κ : Type} (o : Optional T) (action : T → σ → σ)
    (elseAction : σ → σ) (tagAction : T → κ) (tagElse : κ) (s : σ) (log : List κ) :
    (o.HasValue = true →
      o.IfPresentOrElse (recordedAction tagAction action) (recorded tagElse elseAction)
        (s, log) = (action o.value s, log ++ [tagAction o.value])) ∧
    (o.Empty = true →
      o.IfPresentOrElse (recordedAction tagAction action) (recorded tagElse elseAction)
        (s, log) = (elseAction s, log ++ [tagElse])) ∧
    (o.IfPresentOrElse (recordedAction tagAction action) (recorded tagElse elseAction)
        (s, log)).2.length = log.length + 1 := by
  obtain ⟨v, b⟩ := o
  cases b <;>
    simp [Optional.IfPresentOrElse, Optional.HasValue, Optional.Empty, recordedAction,
      recorded]

/-- Witness of C12 on `Of(10)` and `Empty[int]()`: the log names the one callback that
ran (`some v` for `action(v)`, `none` for `elseAction()`). -/
theorem ifPresentOrElse_one_callback_witness :
    (Of (10 : Int)).IfPresentOrElse (recordedAction some (fun _ (s : Nat) => s + 1))
        (recorded none (fun s => s + 100)) (0, []) = (1, [some 10]) ∧
    (Empty : Optional Int).IfPresentOrElse (recordedAction some (fun _ (s : Nat) => s + 1))
        (recorded none (fun s => s + 100)) (0, []) = (100, [none]) :=
  ⟨(ifPresentOrElse_one_callback (Of (10 : Int)) (fun _ (s : Nat) => s + 1)
      (fun s => s + 100) some none 0 []).1 rfl,
   (ifPresentOrElse_one_callback (Empty : Optional Int) (fun _ (s : Nat) => s + 1)
      (fun s => s + 100) some none 0 []).2.1 rfl⟩

/-- C13: for every Optional `o` and every action, run with a call log: if `o` is present
with value `v`, `IfPresent` appends exactly one entry, that of `action v`, and leaves the
state of that run; if `o` is empty, log and caller state are as before: the action did
not run and nothing changed. -/
theorem ifPresent_action_calls {T σ κ : Type} (o : Optional T) (action : T → σ → σ)
    (tag : T → κ) (s : σ) (log : List κ) :
    (o.HasValue = true →
      o.IfPresent (recordedAction tag action) (s, log) =
        (action o.value s, log ++ [tag o.value]) ∧
      o.IfPresent action s = action o.value s) ∧
    (o.Empty = true →
      o.IfPresent (recordedAction tag action) (s, log) = (s, log) ∧
      o.IfPresent action s = s) := by
  obtain ⟨v, b⟩ := o
  cases b <;> simp [Optional.IfPresent, Optional.HasValue, Optional.Empty, recordedAction]

/-- Witness of C13 on `Of(10)` (one run, on `10`) and `Empty[int]()` (no run). -/
theorem ifPresent_action_calls_witness :
    (Of (10 : Int)).IfPresent (recordedAction id (fun _ (s : Nat) => s + 1)) (0, []) =
      (1, [10]) ∧
    (Empty : Optional Int).IfPresent (recordedAction id (fun _ (s : Nat) => s + 1))
      (0, []) = (0, []) :=
  ⟨((ifPresent_action_calls (Of (10 : Int)) (fun _ (s : Nat) => s + 1) id 0 []).1 rfl).1,
   ((ifPresent_action_calls (Empty : Optional Int) (fun _ (s : Nat) => s + 1) id 0
      []).2 rfl).1⟩

/-- C14: for every Optional `o` and every action, run with a call log: if `o` is empty,
`IfEmpty` appends exactly one entry and leaves the state of that run; if `o` is present,
log and caller state are as before: the action did not run and nothing changed. -/
theorem ifEmpty_action_calls {T σ κ : Type} (o : Optional T) (action : σ → σ)
    (tag : κ) (s : σ) (log : List κ) :
    (o.Empty = true →
      o.IfEmpty (recorded tag action) (s, log) = (action s, log ++ [tag]) ∧
      o.IfEmpty action s = action s) ∧
    (o.HasValue = true →
      o.IfEmpty (recorded tag action) (s, log) = (s, log) ∧
      o.IfEmpty action s = s) := by
  obtain ⟨v, b⟩ := o
  cases b <;> simp [Optional.IfEmpty, Optional.HasValue, Optional.Empty, recorded]

/-- Witness of C14 on `Empty[int]()` (one run) and `Of(10)` (no run). -/
theorem ifEmpty_action_calls_witness :
    (Empty : Optional Int).IfEmpty (recorded () (fun s : Nat => s + 1)) (0, []) =
      (1, [()]) ∧
    (Of (10 : Int)).IfEmpty (recorded () (fun s : Nat => s + 1)) (0, []) = (0, []) :=
  ⟨((ifEmpty_action_calls (Empty : Optional Int) (fun s : Nat => s + 1) () 0 []).1 rfl).1,
   ((ifEmpty_action_calls (Of (10 : Int)) (fun s : Nat => s + 1) () 0 []).2 rfl).1⟩

/-! ## Map -/

/-- C15: for all types, every mapper `f`, run with a call log, and every value `v`:
`Map (Of v) f` is `Of (f v)` and the log has grown by exactly one entry, that of `f v`;
for every empty Optional `o`, `Map o f` is `Empty` and log and caller state are as
before (`f` did not run). So `IfPresent` on `Map (Of v) f` runs its action exactly once,
on `f v`. `Map(Of(10), mapFunc)` is present with `"Value is 10"`. -/
theorem map_of_and_empty {T U σ κ τ : Type} [GoType U] (v : T) (o : Optional T)
    (mapper : T → σ → U × σ) (tag : T → κ) (s : σ) (log : List κ)
    (action : U → σ → σ) (tagAction : U → τ) (logAction : List τ) :
    Map (Of v) (recordedMapper tag mapper) (s, log) =
      (Of (mapper v s).1, ((mapper v s).2, log ++ [tag v])) ∧
    Map (Of v) mapper s = (Of (mapper v s).1, (mapper v s).2) ∧
    (o.Empty = true →
      Map o (recordedMapper tag mapper) (s, log) = (Empty, (s, log)) ∧
      Map o mapper s = (Empty, s)) ∧
    (Map (Of v) mapper s).1.IfPresent (recordedAction tagAction action)
        ((Map (Of v) mapper s).2, logAction) =
      (action (mapper v s).1 (mapper v s).2, logAction ++ [tagAction (mapper v s).1]) ∧
    (Map (Of (10 : Int)) (pureMapper mapFunc) ()).1 = Of "Value is 10" ∧
    (Map (Empty : Optional Int) (pureMapper mapFunc) ()).1 = (Empty : Optional String) := by
  refine ⟨rfl, rfl, ?_, rfl, by decide, by decide⟩
  intro he
  obtain ⟨w, b⟩ := o
  cases b
  · exact ⟨rfl, rfl⟩
  · simp [Optional.Empty, Optional.HasValue] at he

/-- Witness of C15: on `Of(10)` the mapper of the tests runs once, on `10`, and the result
is present with `"Value is 10"`; on `Empty[int]()` it does not run. -/
theorem map_of_and_empty_witness :
    Map (Of (10 : Int)) (recordedMapper id (pureMapper mapFunc)) ((), []) =
      (Of "Value is 10", ((), [10])) ∧
    Map (Empty : Optional Int) (recordedMapper id (pureMapper mapFunc)) ((), []) =
      (Empty, ((), [])) :=
  ⟨by
    have h := (@map_of_and_empty Int String Unit Int Unit _ (10 : Int)
      (Empty : Optional Int) (pureMapper mapFunc) id () [] (fun _ s => s) (fun _ => ())
      []).1
    rw [h]
    decide,
   ((@map_of_and_empty Int String Unit Int Unit _ (10 : Int) (Empty : Optional Int)
      (pureMapper mapFunc) id () [] (fun _ s => s) (fun _ => ()) []).2.2.1 rfl).1⟩

/-- C16: for all types, every Optional `opt` and all pure functions `f` and `g`,
`Map (Map opt f) g` is `Map opt (g ∘ f)`: same presence flag, same wrapped value, and
the caller state untouched. With effects, the two mappers run in sequence. -/
theorem map_map_compose {T U V σ : Type} [GoType U] [GoType V] (opt : Optional T)
    (f : T → U) (g : U → V) (s : σ) (mf : T → σ → U × σ) (mg : U → σ → V × σ) :
    Map (Map opt (pureMapper f) s).1 (pureMapper g) (Map opt (pureMapper f) s).2 =
      Map opt (pureMapper (g ∘ f)) s ∧
    (Map (Map opt (pureMapper f) s).1 (pureMapper g) s).1.hasValue =
      (Map opt (pureMapper (g ∘ f)) s).1.hasValue ∧
    (Map (Map opt (pureMapper f) s).1 (pureMapper g) s).1.value =
      (Map opt (pureMapper (g ∘ f)) s).1.value ∧
    Map (Map opt mf s).1 mg (Map opt mf s).2 =
      Map opt (fun v t => mg (mf v t).1 (mf v t).2) s := by
  obtain ⟨w, b⟩ := opt
  cases b <;> simp [Map, Of, Empty, Optional.HasValue, pureMapper]

/-! ## The error of Get under wrapping -/

/-- Wrapping keeps what `errors.Is` finds: a target found in the chain of `e` is found
in the chain of `e` under any further wrappers. -/
theorem isChain_wrapAll (target : GoError) (chain : List (Nat × String)) :
    ∀ e : GoError, isChain target e = true → isChain target (wrapAll chain e) = true := by
  induction chain with
  | nil => intro e h; exact h
  | cons c rest ih =>
    intro e h
    obtain ⟨a, m⟩ := c
    apply ih
    simp [Errorf, isChain, h]

/-- C17: the error of `Get` on an empty Optional keeps its identity under wrapping: for
every chain of `fmt.Errorf` wrappers with `%w` around the error of `Empty[T]().Get()`,
`errors.Is(wrapped, ErrNoValue)` is true; and the error of `Get`, on any Optional, is
nil or the one package-level `ErrNoValue`. An error with the same message allocated
elsewhere is not found: the test is by identity, not by text. -/
theorem errNoValue_found_under_wrapping (T : Type) [GoType T]
    (chain : List (Nat × String)) (o : Optional T) :
    (Empty : Optional T).Get.2 = some ErrNoValue ∧
    errorsIs (((Empty : Optional T).Get.2).map (wrapAll chain)) (some ErrNoValue) = true ∧
    (o.Get.2 = none ∨ o.Get.2 = some ErrNoValue) ∧
    errorsIs ((o.Get.2).map (wrapAll chain)) (some ErrNoValue) = o.Empty ∧
    errorsIs (some (GoError.errorString 1 "Optional has no value")) (some ErrNoValue) =
      false := by
  refine ⟨rfl, ?_, ?_, ?_, by decide⟩
  · exact isChain_wrapAll ErrNoValue chain ErrNoValue (by decide)
  · obtain ⟨v, b⟩ := o
    cases b <;> simp [Optional.Get, Optional.Empty, Optional.HasValue]
  · obtain ⟨v, b⟩ := o
    cases b
    · exact isChain_wrapAll ErrNoValue chain ErrNoValue (by decide)
    · rfl

/-! ## OfMaybeIncomparable on comparable types -/

/-- Only `""` is deeply equal to the zero value of `string`. -/
theorem deepEqual_zero_string (t : String)
    (h : GoType.deepEqual t (GoType.zero : String) = true) : t = GoType.zero := by
  simpa [GoType.deepEqual] using h

/-- Where deep equality with the zero value and `==` with the zero value give the same
answer, the two constructors give one Optional. -/
theorem ofMaybeIncomparable_eq_ofMaybe_of_law {T : Type} [GoType T] [GoComparable T]
    (law : ∀ v : T, GoType.deepEqual v (GoType.zero : T) = GoComparable.eq v GoType.zero)
    (v : T) : OfMaybeIncomparable v = OfMaybe v := by
  simp [OfMaybeIncomparable, OfMaybe, law v]

/-- On integers `==` holds with the zero value for `0` only. -/
theorem eq_zero_int (n : Int)
    (h : GoComparable.eq n (GoType.zero : Int) = true) : n = GoType.zero :=
  of_decide_eq_true h

/-- C18: on comparable types `OfMaybeIncomparable` and `OfMaybe` agree, presence flag and
wrapped value: on integers, strings, the struct `Point` of integer fields, pointers and
`float64`, for every value; on every type whose `==` is identity of values and where
`reflect.DeepEqual` with the zero value holds for the zero value and for no other; and
on every comparable type where `reflect.DeepEqual` and `==` with the zero value agree. -/
theorem ofMaybeIncomparable_eq_ofMaybe :
    (∀ (T : Type) [GoType T] [DecidableEq T],
      (∀ v : T, GoType.deepEqual v (GoType.zero : T) = true ↔ v = GoType.zero) →
      ∀ v : T, OfMaybeIncomparable v = @OfMaybe T _ (identityComparable T) v) ∧
    (∀ v : Int, OfMaybeIncomparable v = OfMaybe v) ∧
    (∀ v : String, OfMaybeIncomparable v = OfMaybe v) ∧
    (∀ v : Point, OfMaybeIncomparable v = OfMaybe v) ∧
    (∀ (α : Type) [GoType α] [DecidableEq α] (p : GoPtr α),
      OfMaybeIncomparable p = OfMaybe p) ∧
    (∀ (T : Type) [GoType T] [GoComparable T],
      (∀ v : T, GoType.deepEqual v (GoType.zero : T) = GoComparable.eq v GoType.zero) →
      ∀ v : T, OfMaybeIncomparable v = OfMaybe v) ∧
    (∀ x : Float64, OfMaybeIncomparable x = OfMaybe x) := by
  refine ⟨?_, ?_, ?_, ?_, ?_,
    fun T _ _ law v => ofMaybeIncomparable_eq_ofMaybe_of_law law v, ?_⟩
  · intro T _ _ law v
    have h : GoType.deepEqual v (GoType.zero : T) = decide (v = GoType.zero) :=
      Bool.eq_iff_iff.2 (by simpa using law v)
    simp [OfMaybeIncomparable, OfMaybe, identityComparable, h]
  · intro v
    exact ofMaybeIncomparable_eq_ofMaybe_of_law (fun _ => rfl) v
  · intro v
    exact ofMaybeIncomparable_eq_ofMaybe_of_law (fun _ => rfl) v
  · intro v
    refine ofMaybeIncomparable_eq_ofMaybe_of_law (fun w => ?_) v
    cases w with
    | mk x y =>
      show (decide (x = 0) && decide (y = 0)) = decide (Point.mk x y = Point.mk 0 0)
      simp
  · intro α _ _ p
    refine ofMaybeIncomparable_eq_ofMaybe_of_law (fun w => ?_) p
    cases w <;> rfl
  · intro x
    exact ofMaybeIncomparable_eq_ofMaybe_of_law (fun _ => rfl) x

/-- Witness of C18 at the integer `42` of the benchmarks and at `0`. -/
theorem ofMaybeIncomparable_eq_ofMaybe_witness :
    OfMaybeIncomparable (42 : Int) = OfMaybe 42 ∧ OfMaybeIncomparable (0 : Int) = OfMaybe 0 :=
  ⟨ofMaybeIncomparable_eq_ofMaybe.1 Int
      (fun w => ⟨deepEqual_zero_int w, fun h => by subst h; rfl⟩) 42,
   ofMaybeIncomparable_eq_ofMaybe.1 Int
      (fun w => ⟨deepEqual_zero_int w, fun h => by subst h; rfl⟩) 0⟩

/-! ## Laws of Map and OfMaybe -/

/-- C19, as stated, fails: `OfMaybe(-0.0)` on `float64` is obtainable and stores `-0.0`
without a value; `Map` with the identity returns `Empty`, whose payload is `0.0`: the
result is not `OfMaybe(-0.0)` field for field. -/
theorem map_identity_negZero_differs :
    Reachable Float64 inferInstance (some inferInstance) (OfMaybe Float64.negZero) ∧
    (Map (OfMaybe Float64.negZero) (pureMapper id) ()).1 ≠ OfMaybe Float64.negZero ∧
    (Map (OfMaybe Float64.negZero) (pureMapper id) ()).1.value = Float64.posZero ∧
    (OfMaybe Float64.negZero).value = Float64.negZero :=
  ⟨Reachable.ofMaybe Float64 inferInstance inferInstance Float64.negZero,
    by decide, by decide, by decide⟩

/-- C19, amended: for every Optional `o` obtainable through the public API
(zero-initialised, `Of`, `OfMaybe`, `OfMaybeIncomparable`, `Empty`, `Map`),
`Map o identity` has the presence flag of `o` and leaves the caller state untouched; it
is `o`, field for field, when `o` is present; when `o` is empty it is `Empty`, and the
payload `o` stores is the zero value, or `==` to it, or deeply equal to it. On a type
where `==` and `reflect.DeepEqual` hold with the zero value for the zero value only,
`Map o identity` is `o`, presence flag and stored payload. -/
theorem map_identity_reachable {T σ : Type} (g : GoType T) (c : Option (GoComparable T))
    (o : Optional T) (hr : Reachable T g c o) (s : σ) :
    (@Map T T σ g o (pureMapper id) s).2 = s ∧
    (@Map T T σ g o (pureMapper id) s).1.hasValue = o.hasValue ∧
    (o.hasValue = true → @Map T T σ g o (pureMapper id) s = (o, s)) ∧
    (o.hasValue = false →
      (@Map T T σ g o (pureMapper id) s).1 = @Empty T g ∧
      (o.value = g.zero ∨
        (∃ c1 : GoComparable T, c = some c1 ∧ c1.eq o.value g.zero = true) ∨
        g.deepEqual o.value g.zero = true)) ∧
    ((∀ v : T, g.deepEqual v g.zero = true → v = g.zero) →
      (∀ c1 : GoComparable T, c = some c1 → ∀ v : T, c1.eq v g.zero = true → v = g.zero) →
      @Map T T σ g o (pureMapper id) s = (o, s) ∧
      (@Map T T σ g o (pureMapper id) s).1.hasValue = o.hasValue ∧
      (@Map T T σ g o (pureMapper id) s).1.value = o.value) := by
  have hp := reachable_payload_of_empty g c o hr
  have hz := fun hdeep heq => reachable_value_zero g c hdeep heq o hr
  obtain ⟨v, b⟩ := o
  cases b
  · refine ⟨rfl, rfl, fun h => Bool.noConfusion h, fun _ => ⟨rfl, hp rfl⟩, ?_⟩
    intro hdeep heq
    have hv : v = g.zero := hz hdeep heq rfl
    subst hv
    exact ⟨rfl, rfl, rfl⟩
  · exact ⟨rfl, rfl, fun _ => rfl, fun h => Bool.noConfusion h,
      fun _ _ => ⟨rfl, rfl, rfl⟩⟩

/-- Witness of C19 amended at the integers: `Map` with the identity gives back
`OfMaybe(0)`, an empty Optional, and `OfMaybe(42)`, a present one. -/
theorem map_identity_reachable_witness :
    Map (OfMaybe (0 : Int)) (pureMapper id) () = (OfMaybe 0, ()) ∧
    Map (OfMaybe (42 : Int)) (pureMapper id) () = (OfMaybe 42, ()) :=
  ⟨((map_identity_reachable (inferInstance : GoType Int) (some inferInstance)
      (OfMaybe 0) (Reachable.ofMaybe _ _ _ 0) ()).2.2.2.2
      (fun v h => deepEqual_zero_int v h)
      (fun _ hc v h => by cases hc; exact eq_zero_int v h)).1,
   (map_identity_reachable (inferInstance : GoType Int) (some inferInstance)
      (OfMaybe 42) (Reachable.ofMaybe _ _ _ 42) ()).2.2.1 rfl⟩

/-- C20, as stated, fails on `float64`: `OfMaybe(-0.0).OrElse(0.0)` is `0.0` and not the
`-0.0` that went in, so `OfMaybe` of it is not `OfMaybe(-0.0)` field for field; and
`OfMaybe(NaN).OrElse(0.0)` is a NaN, which is not `==` to the NaN that went in. -/
theorem ofMaybe_orElse_zero_float_differs :
    (OfMaybe Float64.negZero).OrElse GoType.zero ≠ Float64.negZero ∧
    (OfMaybe Float64.negZero).OrElse GoType.zero = Float64.posZero ∧
    OfMaybe ((OfMaybe Float64.negZero).OrElse GoType.zero) ≠ OfMaybe Float64.negZero ∧
    GoComparable.eq ((OfMaybe Float64.NaN).OrElse GoType.zero) Float64.NaN = false := by
  decide

/-- C20, amended: for every comparable type and every value `v`,
`(OfMaybe v).OrElse zero` is `v` itself when `v != zero` and is the zero value when
`v == zero`. On a comparable type where `==` holds with the zero value for the zero
value only (integers, strings, pointers, structs of such fields), collapsing the zero
value loses no information: `(OfMaybe v).OrElse zero` is `v`, hence `OfMaybe` of that is
`OfMaybe v`. -/
theorem ofMaybe_orElse_zero {T : Type} [GoType T] [GoComparable T] (v : T) :
    (GoComparable.eq v (GoType.zero : T) = false → (OfMaybe v).OrElse GoType.zero = v) ∧
    (GoComparable.eq v (GoType.zero : T) = true →
      (OfMaybe v).OrElse GoType.zero = GoType.zero) ∧
    ((∀ w : T, GoComparable.eq w (GoType.zero : T) = true → w = GoType.zero) →
      (OfMaybe v).OrElse GoType.zero = v ∧
      OfMaybe ((OfMaybe v).OrElse GoType.zero) = OfMaybe v) := by
  have h1 : GoComparable.eq v (GoType.zero : T) = false →
      (OfMaybe v).OrElse GoType.zero = v := by
    intro hv
    simp [OfMaybe, Optional.OrElse, hv]
  have h2 : GoComparable.eq v (GoType.zero : T) = true →
      (OfMaybe v).OrElse GoType.zero = GoType.zero := by
    intro hv
    simp [OfMaybe, Optional.OrElse, hv]
  refine ⟨h1, h2, ?_⟩
  intro law
  have h : (OfMaybe v).OrElse GoType.zero = v := by
    cases hv : GoComparable.eq v (GoType.zero : T) with
    | false => exact h1 hv
    | true => rw [h2 hv]; exact (law v hv).symm
  exact ⟨h, by rw [h]⟩

/-- Witness of C20 amended at the integers `0` and `42`. -/
theorem ofMaybe_orElse_zero_witness :
    (OfMaybe (0 : Int)).OrElse 0 = 0 ∧ OfMaybe ((OfMaybe (0 : Int)).OrElse 0) = OfMaybe 0 ∧
    (OfMaybe (42 : Int)).OrElse 0 = 42 :=
  ⟨((ofMaybe_orElse_zero (0 : Int)).2.2 eq_zero_int).1,
   ((ofMaybe_orElse_zero (0 : Int)).2.2 eq_zero_int).2,
   (ofMaybe_orElse_zero (42 : Int)).1 (by decide)⟩

end optional
